import Mathlib

/-!
Verification of the rag-chatbot core: a shallow embedding in Lean 4 of the
retrieval-augmented-generation pipeline (`src/chatbot/rag.py`), the prompt
construction of the LLM adapter (`src/chatbot/ollama_client.py`), the
content-addressed vector-store client (`src/chatbot/chromadb_client.py`) and
the dual-backend feedback store (`src/chatbot/feedback_manager.py`).

Modelling conventions:
* Python strings are Lean `String`s; character classes (`\s`, `\w`) are
  modelled on their ASCII fragment via `Char.isWhitespace` / `Char.isAlphanum`.
* Python floats are modelled as rationals `ℚ`; `round(x, 1)` is modelled by
  `round1` (round half to even, as Python's `round` does on exact halves).
* Fallible Python code (raising / try-except) is modelled with
  `Except String` carrying the exception message; a total Lean function
  models an operation that never raises.
* The external collaborators (sentence-transformers embedding model, the
  chroma collection primitives, the Ollama generation endpoint, the wall
  clock and uuid source) enter as explicit parameters: a hash function, an
  embedding function, behaviour oracles for retrieval/generation, and fresh
  marker / timestamp strings.  The chroma collection is modelled as an
  id-keyed association list whose `add` is an id-keyed upsert and whose
  `delete` silently ignores absent ids, per the documented contract of the
  external store.
-/

namespace Chatbot

/-! ### Character/string utilities (Python `str.strip`, `\s+` collapse) -/

/-- Drop leading and trailing whitespace from a character list; models
Python's `str.strip()`. -/
def trimChars (l : List Char) : List Char :=
  ((l.dropWhile Char.isWhitespace).reverse.dropWhile Char.isWhitespace).reverse

/-- Python's emptiness guard `not s or not s.strip()`: true iff `s` is empty
or whitespace-only. -/
def strBlank (s : String) : Bool := (trimChars s.toList).isEmpty

/-- Python's `s.strip()` on a Lean `String`. -/
def pyStrip (s : String) : String := String.mk (trimChars s.toList)

/-- One pass of `re.sub(r"\s+", " ", text)`: each maximal run of whitespace
characters becomes a single space.  The flag records whether the previous
character was whitespace (so the run already emitted its single space). -/
def collapseWsAux : Bool → List Char → List Char
  | _, [] => []
  | inRun, c :: rest =>
    if c.isWhitespace then
      if inRun then collapseWsAux true rest
      else ' ' :: collapseWsAux true rest
    else c :: collapseWsAux false rest

/-- Collapse every run of whitespace to a single space, `re.sub(r"\s+", " ", ·)`. -/
def collapseWs (l : List Char) : List Char := collapseWsAux false l

/-- Python's `\w` word-character class (ASCII fragment): letters, digits, `_`. -/
def isWordChar (c : Char) : Bool := c.isAlphanum || c = '_'

/-- The allow-list of `re.sub(r"[^\w\s\.\,\!\?\;\:\-\(\)]", "", ·)`: word
characters, whitespace, and the punctuation `. , ! ? ; : - ( )`. -/
def allowedChar (c : Char) : Bool :=
  isWordChar c || c.isWhitespace ||
    (c = '.' || c = ',' || c = '!' || c = '?' || c = ';' || c = ':' ||
     c = '-' || c = '(' || c = ')')

/-- Python's `"sep".join(parts)`. -/
def joinSep (sep : String) : List String → String
  | [] => ""
  | [x] => x
  | x :: y :: xs => x ++ sep ++ joinSep sep (y :: xs)

/-! ### Rounding (Python `round(x, 1)` on our rational model of floats) -/

/-- Round a rational to the nearest integer, halves to the even neighbour,
as Python's `round` does. -/
def roundHalfEven (q : ℚ) : ℤ :=
  let f := Int.floor q
  let r := q - f
  if r < 1/2 then f else if 1/2 < r then f + 1 else if f % 2 = 0 then f else f + 1

/-- Python's `round(x, 1)`. -/
def round1 (q : ℚ) : ℚ := (roundHalfEven (q * 10) : ℚ) / 10

/-- Render a rational with two decimal places, Python's `f"{x:.2f}"`
(rounding mode approximated by round-half-even on the rational value). -/
def fmt2 (q : ℚ) : String :=
  let sgn := if q < 0 then "-" else ""
  let h := (roundHalfEven (|q| * 100)).toNat
  sgn ++ toString (h / 100) ++ "." ++ (if h % 100 < 10 then "0" else "") ++ toString (h % 100)

/-! ### Metadata dictionaries (Python `dict`) -/

/-- A metadata value: chroma metadata holds strings and integers here. -/
inductive MVal where
  | str (s : String)
  | int (n : ℤ)
deriving DecidableEq, Repr

/-- A Python dict with string keys, as an association list in key-insertion
order (first occurrence of a key wins for position, as in CPython). -/
abbrev Metadata := List (String × MVal)

/-- Lookup in an association list with string keys. -/
def dlookup {β : Type} (k : String) : List (String × β) → Option β
  | [] => none
  | (k₂, v) :: rest => if k₂ = k then some v else dlookup k rest

/-- Python `d[k] = v` / one key of `d.update(...)`: replace the value in
place if the key exists, else append the new pair. -/
def dictInsert {β : Type} (m : List (String × β)) (k : String) (v : β) : List (String × β) :=
  if (dlookup k m).isSome then m.map (fun p => if p.1 = k then (k, v) else p)
  else m ++ [(k, v)]

/-! ### Retrieved documents and context assembly (`rag.py _prepare_context`) -/

/-- One element of the list returned by `ChromaDBClient.retrieve_vector`:
a dict with keys `document`, `metadata`, `distance`, `similarity`. -/
structure RetrievedDoc where
  document : String
  metadata : Metadata
  distance : ℚ
  similarity : ℚ
deriving DecidableEq, Repr

/-- The rendering of one included source inside the context,
`f"Source {i} (similarity: {similarity:.2f}):\n{document}"`. -/
def renderSource (i : ℕ) (d : RetrievedDoc) : String :=
  "Source " ++ toString i ++ " (similarity: " ++ fmt2 d.similarity ++ "):\n" ++ d.document

/-- The `context_parts` list of `_prepare_context`: documents are numbered
from 1 by their retrieval position, and a part is emitted only when the
similarity strictly exceeds the 0.3 relevance threshold. -/
def contextParts (docs : List RetrievedDoc) : List String :=
  (List.enumFrom 1 docs).filterMap
    (fun p => if (3 : ℚ)/10 < p.2.similarity then some (renderSource p.1 p.2) else none)

/-- `RAGChatbot._prepare_context`: empty retrieval yields one fixed sentinel,
a non-empty retrieval in which no document clears the threshold yields a
second fixed sentinel, otherwise the kept parts joined by blank lines. -/
def prepare_context (docs : List RetrievedDoc) : String :=
  if docs.isEmpty then "No relevant information found in the knowledge base."
  else
    let parts := contextParts docs
    if parts.isEmpty then "No highly relevant information found in the knowledge base."
    else joinSep "\n\n" parts

/-! ### Prompt construction (`ollama_client.py generate_response`) -/

/-- The prompt `OllamaClient.generate_response` sends to the model: the bare
prompt when `context` is `None` or empty (Python truthiness of
`if context:`), otherwise the `Context:`/`Question:`/`Answer:` template. -/
def fullPrompt (prompt : String) (context : Option String) : String :=
  match context with
  | none => prompt
  | some c =>
    if c = "" then prompt
    else "Context: " ++ c ++ "\n\nQuestion: " ++ prompt ++ "\n\nAnswer:"

/-! ### Response post-processing (`rag.py _post_process_response`) -/

/-- Drop everything up to and including the first `"\n\n"`, if one occurs;
the remainder of the lazy match `re.sub(r"^Context:.*?\n\n", "", s, DOTALL)`. -/
def dropThroughDoubleNl : List Char → Option (List Char)
  | [] => none
  | '\n' :: '\n' :: rest => some rest
  | _ :: rest => dropThroughDoubleNl rest

/-- Remove a leading echoed `"Context: ...\n\n"` block (lazy up to the first
blank line); without a blank line the pattern does not match and the string
is unchanged. -/
def stripContextBlock (s : String) : String :=
  if List.isPrefixOf "Context:".toList s.toList then
    match dropThroughDoubleNl s.toList with
    | some rest => String.mk rest
    | none => s
  else s

/-- Remove a leading `"Answer:"` tag and the whitespace after it,
`re.sub(r"^Answer:\s*", "", s)`. -/
def stripAnswerTag (s : String) : String :=
  if List.isPrefixOf "Answer:".toList s.toList then
    String.mk ((s.toList.drop 7).dropWhile Char.isWhitespace)
  else s

/-- `RAGChatbot._post_process_response`: strip, remove echoed context block
and answer tag, and substitute a fixed apology if the cleanup left nothing. -/
def post_process_response (response : String) : String :=
  let r := stripAnswerTag (stripContextBlock (pyStrip response))
  if r = "" then
    "I apologize, but I couldn't generate a proper response. Please try rephrasing your question."
  else r

/-! ### The query pipeline (`rag.py process_query`) -/

/-- The behaviour of the two collaborators of `process_query`, observed at
the boundaries the method calls: `chromadb_client.retrieve_vector`
(query text and `top_k` to retrieved documents, or an exception message) and
`ollama_client.generate_response` (query and context to generated text, or
an exception message).  Quantifying theorems over this structure quantifies
over every possible behaviour of the collaborators, including raising. -/
structure PipelineOracle where
  retrieve : String → ℕ → Except String (List RetrievedDoc)
  generate : String → String → Except String String

/-- The fixed apology `process_query` returns when any stage raises, with
the exception text interpolated. -/
def apologyFor (e : String) : String :=
  "I apologize, but I encountered an error while processing your query: " ++ e ++
    ". Please try again or check if the services are running properly."

/-- `RAGChatbot.process_query`: validate, strip, retrieve, assemble context,
generate, post-process; every exception from a stage is caught and turned
into the returned apology string.  Totality of this Lean function is the
never-raises contract. -/
def process_query (o : PipelineOracle) (user_query : String) (top_k : ℕ) : String :=
  if strBlank user_query then "Please provide a valid question or query."
  else
    let q := pyStrip user_query
    match o.retrieve q top_k with
    | .error e => apologyFor e
    | .ok docs =>
      let context := prepare_context docs
      match o.generate q context with
      | .error e => apologyFor e
      | .ok response => post_process_response response

/-! ### The vector-store client (`chromadb_client.py`) -/

/-- One record of the chroma collection: document text, embedding, metadata. -/
structure StoredDoc where
  text : String
  embedding : List ℚ
  metadata : Metadata
deriving DecidableEq, Repr

/-- The chroma collection, modelled as records keyed by document id.
`collection.add` of the client keys every record by the content hash, and
the external store's write under an existing id replaces that record
(content-addressed dedup of the store contract): `dictInsert` below. -/
abbrev Collection := List (String × StoredDoc)

/-- The `metadata.update({"text_length": len(text), "stored_at": str(uuid.uuid4())})`
step of `store_vector`: performed in place on the caller's dict (`metadata`
is the caller's mapping when one was supplied, a fresh empty dict
otherwise). -/
def augMeta (metadata : Option Metadata) (storedAt : String) (text : String) : Metadata :=
  dictInsert (dictInsert (metadata.getD []) "text_length" (.int text.length))
    "stored_at" (.str storedAt)

/-- `ChromaDBClient.store_vector`.  `hashFn` stands for
`hashlib.md5(text.encode()).hexdigest()` of `_generate_document_id` (an
arbitrary fixed function of the text; every theorem below holds for all of
them), `embed` for the sentence-transformers model of
`_generate_embedding` (deterministic per the embedding contract), and
`storedAt` for the fresh `str(uuid.uuid4())` marker of this call.  The
returned metadata is the very dict the caller passed, after the in-place
`metadata.update({...})` the method performs on it. -/
def store_vector (hashFn : String → String) (embed : String → List ℚ)
    (storedAt : String) (col : Collection) (text : String)
    (metadata : Option Metadata) :
    Except String (String × Collection × Metadata) :=
  if strBlank text then .error "Failed to store document: Text cannot be empty"
  else
    let embedding := embed text
    let docId := hashFn text
    let m₁ := augMeta metadata storedAt text
    .ok (docId, dictInsert col docId ⟨text, embedding, m₁⟩, m₁)

/-- The external `collection.delete(ids=[doc_id])`: removes the record with
that id; an absent id is silently ignored (no exception), per the
documented behaviour of the store's delete. -/
def collectionDelete (col : Collection) (docId : String) : Collection :=
  col.filter (fun p => decide (p.1 ≠ docId))

/-- `ChromaDBClient.delete_document`: returns `True` unless the underlying
delete raised, paired with the collection afterwards. -/
def delete_document (col : Collection) (docId : String) : Bool × Collection :=
  (true, collectionDelete col docId)

/-! ### Ingestion preprocessing (`rag.py _preprocess_text`, `store_information`) -/

/-- The first two `re.sub` passes of `_preprocess_text`: collapse whitespace
runs, then drop the characters outside the allow-list. -/
def preprocessCore (text : String) : List Char :=
  (collapseWs text.toList).filter allowedChar

/-- The length cap of `_preprocess_text`: over 10000 characters, keep the
first 10000 and append the `"..."` ellipsis marker. -/
def truncate10k (l : List Char) : List Char :=
  if 10000 < l.length then l.take 10000 ++ ('.' :: '.' :: '.' :: []) else l

/-- `RAGChatbot._preprocess_text`: collapse whitespace runs, drop characters
outside the allow-list, truncate to 10000 characters appending `"..."`,
then strip. -/
def preprocess_text (text : String) : String :=
  String.mk (trimChars (truncate10k (preprocessCore text)))

/-- `RAGChatbot.store_information`: reject blank input, preprocess, reject
an empty preprocessing result, delegate to `store_vector`; every raised
error is re-wrapped with the `Failed to store information:` prefix. -/
def store_information (hashFn : String → String) (embed : String → List ℚ)
    (storedAt : String) (col : Collection) (information : String)
    (metadata : Option Metadata) :
    Except String (String × Collection × Metadata) :=
  if strBlank information then
    .error "Failed to store information: Information cannot be empty"
  else
    let cleaned := preprocess_text information
    if cleaned = "" then
      .error "Failed to store information: Information is empty after preprocessing"
    else
      match store_vector hashFn embed storedAt col cleaned metadata with
      | .error e => .error ("Failed to store information: " ++ e)
      | .ok r => .ok r

/-! ### The feedback store (`feedback_manager.py`)

The SQLite backend is a list of rows in insertion order (the autoincrement
key is the position); the JSON backend is the list parsed from the file.
Timestamps are ISO-8601 strings, compared lexicographically (which is their
chronological order, and the order both `datetime(timestamp)` in SQL and
Python sorting give on uniformly formatted stamps). -/

/-- A row of the `feedback` table.  `message_id` and `feedback` may be SQL
`NULL` (a migrated legacy entry can lack them). -/
structure Row where
  message_id : Option String
  timestamp : String
  user_query : String
  response : String
  feedback : Option String
  response_length : ℤ
  query_length : ℤ
deriving DecidableEq, Repr

/-- The table constraint `CHECK(feedback IN ('positive','negative'))`: a SQL
`CHECK` passes on `NULL` and otherwise demands one of the two values. -/
def feedbackCheck : Option String → Bool
  | none => true
  | some f => decide (f = "positive") || decide (f = "negative")

/-- An `INSERT` into the `feedback` table: the row is appended when it
passes the `CHECK` constraint, otherwise the raised `IntegrityError` leaves
the table unchanged. -/
def insertRow (table : List Row) (r : Row) : Bool × List Row :=
  if feedbackCheck r.feedback then (true, table ++ [r]) else (false, table)

/-- A legacy JSON feedback entry as `_maybe_migrate_from_json` reads it:
every field is fetched with `entry.get`, so any of them may be missing
(`user_query` and `response` default to the empty string right there). -/
structure LegacyEntry where
  message_id : Option String
  timestamp : Option String
  user_query : String
  response : String
  feedback : Option String
  response_length : Option ℤ
  query_length : Option ℤ
deriving DecidableEq, Repr

/-- The row `_maybe_migrate_from_json` builds from one legacy entry:
`entry.get("timestamp") or datetime.now().isoformat()` keeps a present
non-empty stamp and substitutes the current time otherwise; missing length
fields default to the string lengths. -/
def migrateEntry (now : String) (e : LegacyEntry) : Row where
  message_id := e.message_id
  timestamp :=
    match e.timestamp with
    | some t => if t = "" then now else t
    | none => now
  user_query := e.user_query
  response := e.response
  feedback := e.feedback
  response_length := e.response_length.getD e.response.length
  query_length := e.query_length.getD e.user_query.length

/-- `executemany` of the migration inserts: one transaction, so either every
row passes the `CHECK` constraint and all are appended, or the raised error
rolls the whole batch back. -/
def insertAllChecked (table rows : List Row) : List Row :=
  if rows.all (fun r => feedbackCheck r.feedback) then table ++ rows else table

/-- `FeedbackManager._maybe_migrate_from_json`: nothing happens unless the
legacy file exists, the table is currently empty, and the file parses to a
non-empty list (`jsonFile = none` also covers an unreadable or non-list
file, each of which ends the migration without inserting). -/
def maybe_migrate_from_json (now : String) (jsonFile : Option (List LegacyEntry))
    (table : List Row) : List Row :=
  match jsonFile with
  | none => table
  | some data =>
    if !table.isEmpty then table
    else if data.isEmpty then table
    else insertAllChecked table (data.map (migrateEntry now))

/-- `FeedbackManager.__init__` with the SQLite backend: `CREATE TABLE IF NOT
EXISTS` (`db = none` is a missing database file, `some t` an existing table
with rows `t`), then the one-time migration check. -/
def initSqlite (now : String) (jsonFile : Option (List LegacyEntry))
    (db : Option (List Row)) : List Row :=
  maybe_migrate_from_json now jsonFile (db.getD [])

/-- The row `add_feedback` inserts: all fields present, lengths derived. -/
def mkRow (message_id user_query response feedback ts : String) : Row where
  message_id := some message_id
  timestamp := ts
  user_query := user_query
  response := response
  feedback := some feedback
  response_length := response.length
  query_length := user_query.length

/-- `FeedbackManager.add_feedback`, SQLite backend: the `INSERT` passes
through the `CHECK` constraint; an invalid value raises `IntegrityError`,
which the method catches, returning `False` with no row added. -/
def add_feedback_sqlite (table : List Row)
    (message_id user_query response feedback ts : String) : Bool × List Row :=
  insertRow table (mkRow message_id user_query response feedback ts)

/-- A feedback entry of the JSON file, with every field `add_feedback`
writes. -/
structure JEntry where
  message_id : String
  timestamp : String
  user_query : String
  response : String
  feedback : String
  response_length : ℤ
  query_length : ℤ
deriving DecidableEq, Repr

/-- The entry dict `add_feedback` appends on the JSON path. -/
def mkJEntry (message_id user_query response feedback ts : String) : JEntry where
  message_id := message_id
  timestamp := ts
  user_query := user_query
  response := response
  feedback := feedback
  response_length := response.length
  query_length := user_query.length

/-- `FeedbackManager.add_feedback`, JSON backend: load, append, save — this
path performs no validation of the feedback value at all. -/
def add_feedback_json (file : List JEntry)
    (message_id user_query response feedback ts : String) : Bool × List JEntry :=
  (true, file ++ [mkJEntry message_id user_query response feedback ts])

/-- The dictionary `get_feedback_stats` returns. -/
structure Stats where
  total_feedback : ℕ
  positive_feedback : ℕ
  negative_feedback : ℕ
  satisfaction_rate : ℚ
  average_response_length : ℚ
  average_query_length : ℚ
deriving DecidableEq, Repr

/-- The all-zero statistics returned for an empty store. -/
def emptyStats : Stats := ⟨0, 0, 0, 0, 0, 0⟩

/-- `SELECT COUNT(1) ... WHERE feedback='positive'` over the table. -/
def posCount (table : List Row) : ℕ :=
  (table.filter (fun r => decide (r.feedback = some "positive"))).length

/-- `SELECT COUNT(1) ... WHERE feedback='negative'` over the table. -/
def negCount (table : List Row) : ℕ :=
  (table.filter (fun r => decide (r.feedback = some "negative"))).length

/-- `len([f for f in data if f.get("feedback") == "positive"])`. -/
def posCountJ (file : List JEntry) : ℕ :=
  (file.filter (fun f => decide (f.feedback = "positive"))).length

/-- `len([f for f in data if f.get("feedback") == "negative"])`. -/
def negCountJ (file : List JEntry) : ℕ :=
  (file.filter (fun f => decide (f.feedback = "negative"))).length

/-- `FeedbackManager.get_feedback_stats`, SQLite backend: `COUNT` queries
for the positive/negative totals, the guarded satisfaction rate, and the
`AVG` aggregates, each rounded to one decimal place. -/
def get_feedback_stats_sqlite (table : List Row) : Stats :=
  if table.length = 0 then emptyStats
  else
    let rate : ℚ :=
      if 0 < posCount table + negCount table then
        ((posCount table : ℚ) / ((posCount table : ℚ) + (negCount table : ℚ))) * 100
      else 0
    let avgR : ℚ := ((table.map Row.response_length).sum : ℚ) / (table.length : ℚ)
    let avgQ : ℚ := ((table.map Row.query_length).sum : ℚ) / (table.length : ℚ)
    ⟨table.length, posCount table, negCount table, round1 rate, round1 avgR, round1 avgQ⟩

/-- `FeedbackManager.get_feedback_stats`, JSON backend: list comprehensions
over the parsed entries, the same guarded rate, averages as sums over the
total, each rounded to one decimal place. -/
def get_feedback_stats_json (file : List JEntry) : Stats :=
  if file.isEmpty then emptyStats
  else
    let rate : ℚ :=
      if 0 < posCountJ file + negCountJ file then
        ((posCountJ file : ℚ) / ((posCountJ file : ℚ) + (negCountJ file : ℚ))) * 100
      else 0
    let avgR : ℚ := ((file.map JEntry.response_length).sum : ℚ) / (file.length : ℚ)
    let avgQ : ℚ := ((file.map JEntry.query_length).sum : ℚ) / (file.length : ℚ)
    ⟨file.length, posCountJ file, negCountJ file, round1 rate, round1 avgR, round1 avgQ⟩

/-! ### Ordering by timestamp (`get_recent_feedback`, `export_feedback`) -/

/-- Row order by ascending timestamp (lexicographic on ISO stamps, the
order `ORDER BY datetime(timestamp) ASC` gives). -/
def rowTsLe (a b : Row) : Prop := a.timestamp.toList ≤ b.timestamp.toList

/-- Row order by descending timestamp (`ORDER BY datetime(timestamp) DESC`). -/
def rowTsGe (a b : Row) : Prop := b.timestamp.toList ≤ a.timestamp.toList

/-- JSON-entry order by ascending timestamp. -/
def jTsLe (a b : JEntry) : Prop := a.timestamp.toList ≤ b.timestamp.toList

/-- JSON-entry order by descending timestamp (`sorted(..., reverse=True)`). -/
def jTsGe (a b : JEntry) : Prop := b.timestamp.toList ≤ a.timestamp.toList

instance : DecidableRel rowTsLe := fun a b => by unfold rowTsLe; infer_instance

instance : DecidableRel rowTsGe := fun a b => by unfold rowTsGe; infer_instance

instance : DecidableRel jTsLe := fun a b => by unfold jTsLe; infer_instance

instance : DecidableRel jTsGe := fun a b => by unfold jTsGe; infer_instance

instance : IsTotal Row rowTsLe := ⟨fun a b => le_total a.timestamp.toList b.timestamp.toList⟩

instance : IsTotal Row rowTsGe := ⟨fun a b => le_total b.timestamp.toList a.timestamp.toList⟩

instance : IsTotal JEntry jTsLe := ⟨fun a b => le_total a.timestamp.toList b.timestamp.toList⟩

instance : IsTotal JEntry jTsGe := ⟨fun a b => le_total b.timestamp.toList a.timestamp.toList⟩

instance : IsTrans Row rowTsLe := ⟨fun _ _ _ h₁ h₂ => le_trans h₁ h₂⟩

instance : IsTrans Row rowTsGe := ⟨fun _ _ _ h₁ h₂ => le_trans h₂ h₁⟩

instance : IsTrans JEntry jTsLe := ⟨fun _ _ _ h₁ h₂ => le_trans h₁ h₂⟩

instance : IsTrans JEntry jTsGe := ⟨fun _ _ _ h₁ h₂ => le_trans h₂ h₁⟩

/-- `FeedbackManager.get_recent_feedback`, SQLite backend:
`ORDER BY datetime(timestamp) DESC LIMIT ?`. -/
def get_recent_feedback_sqlite (table : List Row) (limit : ℕ) : List Row :=
  (List.insertionSort rowTsGe table).take limit

/-- `FeedbackManager.get_recent_feedback`, JSON backend: sort the parsed
entries by timestamp descending and slice. -/
def get_recent_feedback_json (file : List JEntry) (limit : ℕ) : List JEntry :=
  (List.insertionSort jTsGe file).take limit

/-- The object `export_feedback` writes. -/
structure ExportFile (α : Type) where
  export_timestamp : String
  total_entries : ℕ
  feedback_data : List α
deriving DecidableEq, Repr

/-- `FeedbackManager.export_feedback`, SQLite backend: the rows ordered by
`datetime(timestamp) ASC` with their count. -/
def export_feedback_sqlite (now : String) (table : List Row) : ExportFile Row :=
  ⟨now, (List.insertionSort rowTsLe table).length, List.insertionSort rowTsLe table⟩

/-- `FeedbackManager.export_feedback`, JSON backend: `data` is just
`self._json_load()` — the entries in file order, with no sorting. -/
def export_feedback_json (now : String) (file : List JEntry) : ExportFile JEntry :=
  ⟨now, file.length, file⟩

/-! ## Helper lemmas -/

theorem dlookup_map_update {β : Type} (m : List (String × β)) (k : String) (v : β) :
    dlookup k (m.map (fun p => if p.1 = k then (k, v) else p)) =
      if (dlookup k m).isSome then some v else none := by
  induction m with
  | nil => rfl
  | cons p rest ih =>
    obtain ⟨k₂, w⟩ := p
    by_cases h : k₂ = k
    · subst h
      rw [List.map_cons, if_pos (show (k₂, w).1 = k₂ from rfl)]
      simp [dlookup]
    · rw [List.map_cons, if_neg (show ¬(k₂, w).1 = k from h)]
      simp [dlookup, h, ih]

theorem dlookup_map_update_ne {β : Type} (m : List (String × β)) {k k₂ : String} (v : β)
    (h : k₂ ≠ k) :
    dlookup k₂ (m.map (fun p => if p.1 = k then (k, v) else p)) = dlookup k₂ m := by
  induction m with
  | nil => rfl
  | cons p rest ih =>
    obtain ⟨k₃, w⟩ := p
    by_cases h₃ : k₃ = k
    · subst h₃
      rw [List.map_cons, if_pos (show (k₃, w).1 = k₃ from rfl)]
      have h₂ : k₃ ≠ k₂ := Ne.symm h
      simp [dlookup, h₂, ih]
    · rw [List.map_cons, if_neg (show ¬(k₃, w).1 = k from h₃)]
      simp [dlookup, ih]

theorem dlookup_append_of_none {β : Type} {m : List (String × β)} {k : String}
    (h : dlookup k m = none) (l₂ : List (String × β)) :
    dlookup k (m ++ l₂) = dlookup k l₂ := by
  induction m with
  | nil => rfl
  | cons p rest ih =>
    obtain ⟨k₂, w⟩ := p
    by_cases hk : k₂ = k
    · simp [dlookup, hk] at h
    · simp only [dlookup, hk, if_false] at h
      simpa [dlookup, hk] using ih h

theorem dlookup_append_of_some {β : Type} {m : List (String × β)} {k : String} {v : β}
    (h : dlookup k m = some v) (l₂ : List (String × β)) :
    dlookup k (m ++ l₂) = some v := by
  induction m with
  | nil => simp [dlookup] at h
  | cons p rest ih =>
    obtain ⟨k₂, w⟩ := p
    by_cases hk : k₂ = k
    · simp_all [dlookup]
    · simp only [dlookup, hk, if_false] at h
      simpa [dlookup, hk] using ih h

theorem dlookup_dictInsert_self {β : Type} (m : List (String × β)) (k : String) (v : β) :
    dlookup k (dictInsert m k v) = some v := by
  unfold dictInsert
  cases hm : dlookup k m with
  | some w =>
    rw [if_pos (show (some w).isSome = true from rfl), dlookup_map_update, hm,
      if_pos (show (some w).isSome = true from rfl)]
  | none =>
    rw [if_neg (by simp), dlookup_append_of_none hm]
    simp [dlookup]

theorem dlookup_dictInsert_ne {β : Type} (m : List (String × β)) {k k₂ : String} (v : β)
    (h : k₂ ≠ k) : dlookup k₂ (dictInsert m k v) = dlookup k₂ m := by
  unfold dictInsert
  cases hs : dlookup k m with
  | some w =>
    rw [if_pos (show (some w).isSome = true from rfl), dlookup_map_update_ne m v h]
  | none =>
    rw [if_neg (by simp)]
    cases hm : dlookup k₂ m with
    | none =>
      rw [dlookup_append_of_none hm]
      have h₂ : ¬k = k₂ := fun hh => h hh.symm
      simp [dlookup, h₂]
    | some w => exact dlookup_append_of_some hm _

theorem length_dictInsert_isSome {β : Type} {m : List (String × β)} {k : String}
    (h : (dlookup k m).isSome = true) (v : β) :
    (dictInsert m k v).length = m.length := by
  unfold dictInsert
  rw [h, if_pos rfl, List.length_map]

theorem dropWhile_dropWhile (p : Char → Bool) (l : List Char) :
    List.dropWhile p (List.dropWhile p l) = List.dropWhile p l := by
  induction l with
  | nil => rfl
  | cons c rest ih =>
    by_cases h : p c
    · simpa [List.dropWhile, h] using ih
    · simp [List.dropWhile, h]

theorem head?_dropWhile_false {p : Char → Bool} {l : List Char} {c : Char}
    (h : (List.dropWhile p l).head? = some c) : p c = false := by
  induction l with
  | nil => simp [List.dropWhile] at h
  | cons d rest ih =>
    by_cases hd : p d
    · exact ih (by simpa [List.dropWhile, hd] using h)
    · have hstep : List.dropWhile p (d :: rest) = d :: rest := by
        simp [List.dropWhile, hd]
      rw [hstep] at h
      have hdc : d = c := by simpa using h
      simp only [Bool.not_eq_true] at hd
      rw [← hdc]
      exact hd

theorem getLast?_dropWhile {p : Char → Bool} {l : List Char}
    (h : List.dropWhile p l ≠ []) : (List.dropWhile p l).getLast? = l.getLast? := by
  induction l with
  | nil => simp [List.dropWhile] at h
  | cons d rest ih =>
    by_cases hd : p d
    · have hstep : List.dropWhile p (d :: rest) = List.dropWhile p rest := by
        simp [List.dropWhile, hd]
      rw [hstep] at h ⊢
      have hrest : rest ≠ [] := by
        intro he
        exact h (by simp [he, List.dropWhile])
      rw [ih h]
      cases rest with
      | nil => exact absurd rfl hrest
      | cons e tl => simp [List.getLast?_cons_cons]
    · have hstep : List.dropWhile p (d :: rest) = d :: rest := by
        simp [List.dropWhile, hd]
      rw [hstep]

theorem dropWhile_eq_self_of_head {p : Char → Bool} {l : List Char}
    (h : ∀ c, l.head? = some c → p c = false) : List.dropWhile p l = l := by
  cases l with
  | nil => rfl
  | cons c rest => simp [List.dropWhile, h c rfl]

theorem trimChars_idem (l : List Char) : trimChars (trimChars l) = trimChars l := by
  generalize hq : List.dropWhile Char.isWhitespace
      (List.dropWhile Char.isWhitespace l).reverse = q
  have htl : trimChars l = q.reverse := by unfold trimChars; rw [hq]
  rw [htl]
  by_cases hqe : q = []
  · rw [hqe]; rfl
  · have hne : List.dropWhile Char.isWhitespace
        (List.dropWhile Char.isWhitespace l).reverse ≠ [] := by
      rw [hq]; exact hqe
    have hlast := getLast?_dropWhile hne
    rw [hq] at hlast
    have hhead : ∀ c₂, q.reverse.head? = some c₂ → Char.isWhitespace c₂ = false := by
      intro c₂ hc₂
      rw [List.head?_reverse, hlast, List.getLast?_reverse] at hc₂
      exact head?_dropWhile_false hc₂
    have h₁ : List.dropWhile Char.isWhitespace q.reverse = q.reverse :=
      dropWhile_eq_self_of_head hhead
    have h₂ : List.dropWhile Char.isWhitespace q = q := by
      rw [← hq, dropWhile_dropWhile]
    unfold trimChars
    rw [h₁, List.reverse_reverse, h₂]

theorem trimChars_toList_pyStrip (s : String) :
    (pyStrip s).toList = trimChars s.toList := rfl

theorem pyStrip_preprocess (information : String) :
    pyStrip (preprocess_text information) = preprocess_text information := by
  unfold pyStrip preprocess_text
  rw [show (String.mk (trimChars (truncate10k (preprocessCore information)))).toList =
      trimChars (truncate10k (preprocessCore information)) from rfl, trimChars_idem]

theorem strBlank_preprocess_ne_empty {information : String}
    (h : preprocess_text information ≠ "") : strBlank (preprocess_text information) = false := by
  have h₂ : (preprocess_text information).toList ≠ [] := by
    intro h₀
    exact h (by cases hs : preprocess_text information with
      | mk l => cases (show l = [] from by simpa [hs] using h₀); rfl)
  have h₃ := pyStrip_preprocess information
  unfold strBlank
  rw [show trimChars (preprocess_text information).toList = (pyStrip (preprocess_text information)).toList from rfl, h₃]
  simpa using h₂

/-! ## Claim theorems -/

/-- C1: for every input string and any behaviour of the retrieval and
generation collaborators — including raising, modelled by the `.error`
branches of the oracle — `process_query` is a total function into `String`
(it never raises); a blank query returns the fixed prompt-for-input
message, an exception from retrieval or generation returns the apology
string, and the apology string literally contains the failure message
between its fixed prefix and suffix. -/
theorem process_query_never_raises (o : PipelineOracle) (q : String) (k : ℕ) :
    (strBlank q = true → process_query o q k = "Please provide a valid question or query.") ∧
    (∀ e, strBlank q = false → o.retrieve (pyStrip q) k = .error e →
      process_query o q k = apologyFor e) ∧
    (∀ docs e, strBlank q = false → o.retrieve (pyStrip q) k = .ok docs →
      o.generate (pyStrip q) (prepare_context docs) = .error e →
      process_query o q k = apologyFor e) ∧
    (∀ e, apologyFor e =
      "I apologize, but I encountered an error while processing your query: " ++ e ++
        ". Please try again or check if the services are running properly.") := by
  refine ⟨?_, ?_, ?_, fun e => rfl⟩
  · intro h; simp [process_query, h]
  · intro e h hr; simp [process_query, h, hr]
  · intro docs e h hr hg; simp [process_query, h, hr, hg]

theorem mem_contextParts {docs : List RetrievedDoc} {s : String}
    (hs : s ∈ contextParts docs) :
    ∃ i d, (i, d) ∈ List.enumFrom 1 docs ∧ (3 : ℚ)/10 < d.similarity ∧
      s = renderSource i d := by
  unfold contextParts at hs
  rw [List.mem_filterMap] at hs
  obtain ⟨⟨i, d⟩, hmem, hf⟩ := hs
  by_cases h : (3 : ℚ)/10 < d.similarity
  · rw [if_pos h] at hf
    exact ⟨i, d, hmem, h, (Option.some_injective _ hf).symm⟩
  · rw [if_neg h] at hf
    exact absurd hf (by simp)

theorem contextParts_eq_nil_aux (docs : List RetrievedDoc)
    (h : ∀ d ∈ docs, d.similarity ≤ 3/10) : ∀ n : ℕ,
    (List.enumFrom n docs).filterMap
      (fun p => if (3 : ℚ)/10 < p.2.similarity then some (renderSource p.1 p.2) else none) =
      [] := by
  induction docs with
  | nil => intro n; rfl
  | cons d rest ih =>
    intro n
    have hd : ¬ (3 : ℚ)/10 < d.similarity := not_lt.mpr (h d (List.mem_cons_self d rest))
    rw [show List.enumFrom n (d :: rest) = (n, d) :: List.enumFrom (n + 1) rest from rfl,
      List.filterMap_cons]
    rw [if_neg hd]
    exact ih (fun d₂ hd₂ => h d₂ (List.mem_cons_of_mem d hd₂)) (n + 1)

theorem contextParts_eq_nil {docs : List RetrievedDoc}
    (h : ∀ d ∈ docs, d.similarity ≤ 3/10) : contextParts docs = [] :=
  contextParts_eq_nil_aux docs h 1

theorem renderSource_ne_empty (i : ℕ) (d : RetrievedDoc) : renderSource i d ≠ "" := by
  intro h
  have h₂ := congrArg String.length h
  unfold renderSource at h₂
  simp only [String.length_append] at h₂
  rw [show ("Source " : String).length = 7 from rfl,
    show ("" : String).length = 0 from rfl] at h₂
  omega

theorem joinSep_blankline_ne_empty :
    ∀ parts : List String, (∀ s ∈ parts, s ≠ "") → parts ≠ [] →
      joinSep "\n\n" parts ≠ ""
  | [], _, h => absurd rfl h
  | [x], hmem, _ => by simpa [joinSep] using hmem x (by simp)
  | x :: y :: xs, _, _ => by
    intro h
    have h₂ := congrArg String.length h
    simp only [joinSep, String.length_append] at h₂
    rw [show ("\n\n" : String).length = 2 from rfl,
      show ("" : String).length = 0 from rfl] at h₂
    omega

theorem prepare_context_ne_empty (docs : List RetrievedDoc) :
    prepare_context docs ≠ "" := by
  unfold prepare_context
  by_cases he : docs.isEmpty
  · rw [if_pos he]; decide
  · rw [if_neg he]
    by_cases hp : (contextParts docs).isEmpty
    · rw [if_pos hp]; decide
    · rw [if_neg hp]
      apply joinSep_blankline_ne_empty
      · intro s hs
        obtain ⟨i, d, _, _, hrend⟩ := mem_contextParts hs
        rw [hrend]
        exact renderSource_ne_empty i d
      · intro h₀
        rw [h₀] at hp
        exact hp rfl

theorem process_query_never_raises_witness :
    process_query ⟨fun _ _ => .error "boom", fun _ _ => .ok "x"⟩ "  " 3 =
      "Please provide a valid question or query." ∧
    process_query ⟨fun _ _ => .error "boom", fun _ _ => .ok "x"⟩ "hi" 3 =
      apologyFor "boom" ∧
    process_query ⟨fun _ _ => .ok [], fun _ _ => .error "gen down"⟩ "hi" 3 =
      apologyFor "gen down" := by
  refine ⟨?_, ?_, ?_⟩
  · exact (process_query_never_raises _ "  " 3).1 (by decide)
  · exact (process_query_never_raises _ "hi" 3).2.1 "boom" (by decide) rfl
  · exact (process_query_never_raises _ "hi" 3).2.2.1 [] "gen down" (by decide) rfl rfl

/-- C2 counterexample: with one retrieved document of similarity 0.1 — so no
result exceeds the threshold — the prompt handed to the model is the
`Context:` wrapper around the sentinel, not the bare query as the claim
states, because the sentinel is a non-empty string and therefore truthy in
`generate_response`. -/
theorem prompt_bare_query_counterexample :
    prepare_context [⟨"A", [], 9/10, 1/10⟩] =
      "No highly relevant information found in the knowledge base." ∧
    fullPrompt "q" (some (prepare_context [⟨"A", [], 9/10, 1/10⟩])) =
      "Context: No highly relevant information found in the knowledge base.\n\nQuestion: q\n\nAnswer:" ∧
    fullPrompt "q" (some (prepare_context [⟨"A", [], 9/10, 1/10⟩])) ≠ "q" := by
  have hcp : contextParts [⟨"A", [], 9/10, 1/10⟩] = [] := by
    apply contextParts_eq_nil
    intro d hd
    simp only [List.mem_singleton] at hd
    rw [hd]
    norm_num
  have hctx : prepare_context [⟨"A", [], 9/10, 1/10⟩] =
      "No highly relevant information found in the knowledge base." := by
    unfold prepare_context
    rw [hcp]
    rfl
  refine ⟨hctx, ?_, ?_⟩
  · rw [hctx]
    rfl
  · rw [hctx]
    decide

/-- C2 (amended): every part of the assembled context comes from a
retrieved result whose similarity strictly exceeds 0.3 (so results with
similarity ≤ 0.3 are excluded); when no result exceeds the threshold the
context equals a fixed no-relevant-information sentinel (one string for an
empty retrieval, another for a non-empty all-filtered retrieval); and the
subsequent LLM call always receives the `Context: ...` wrapper around the
context — including around the sentinel — never the bare query, because
`_prepare_context` never returns an empty string. -/
theorem context_threshold_and_prompt (docs : List RetrievedDoc) (q : String) :
    (∀ s ∈ contextParts docs, ∃ i d, (i, d) ∈ List.enumFrom 1 docs ∧
      (3 : ℚ)/10 < d.similarity ∧ s = renderSource i d) ∧
    ((∀ d ∈ docs, d.similarity ≤ 3/10) →
      prepare_context docs =
        if docs.isEmpty then "No relevant information found in the knowledge base."
        else "No highly relevant information found in the knowledge base.") ∧
    (fullPrompt q (some (prepare_context docs)) =
      "Context: " ++ prepare_context docs ++ "\n\nQuestion: " ++ q ++ "\n\nAnswer:") ∧
    fullPrompt q (some (prepare_context docs)) ≠ q := by
  have hwrap : fullPrompt q (some (prepare_context docs)) =
      "Context: " ++ prepare_context docs ++ "\n\nQuestion: " ++ q ++ "\n\nAnswer:" := by
    show (if prepare_context docs = "" then q
      else "Context: " ++ prepare_context docs ++ "\n\nQuestion: " ++ q ++ "\n\nAnswer:") =
      "Context: " ++ prepare_context docs ++ "\n\nQuestion: " ++ q ++ "\n\nAnswer:"
    rw [if_neg (prepare_context_ne_empty docs)]
  refine ⟨fun s hs => mem_contextParts hs, ?_, hwrap, ?_⟩
  · intro h
    unfold prepare_context
    by_cases he : docs.isEmpty
    · rw [if_pos he, if_pos he]
    · rw [if_neg he, if_neg he, contextParts_eq_nil h]
      rfl
  · intro h
    rw [hwrap] at h
    have h₂ := congrArg String.length h
    simp only [String.length_append] at h₂
    rw [show ("Context: " : String).length = 9 from rfl,
      show ("\n\nQuestion: " : String).length = 12 from rfl,
      show ("\n\nAnswer:" : String).length = 9 from rfl] at h₂
    omega

theorem context_threshold_and_prompt_witness :
    ((⟨"A", [], 9/10, 1/10⟩ : RetrievedDoc).similarity ≤ 3/10) ∧
    prepare_context [(⟨"A", [], 9/10, 1/10⟩ : RetrievedDoc)] =
      "No highly relevant information found in the knowledge base." ∧
    fullPrompt "q" (some (prepare_context [(⟨"A", [], 9/10, 1/10⟩ : RetrievedDoc)])) ≠ "q" := by
  have hlow : ∀ d ∈ [(⟨"A", [], 9/10, 1/10⟩ : RetrievedDoc)], d.similarity ≤ 3/10 := by
    intro d hd
    simp only [List.mem_singleton] at hd
    rw [hd]
    norm_num
  exact ⟨by norm_num, (context_threshold_and_prompt _ "q").2.1 hlow,
    (context_threshold_and_prompt _ "q").2.2.2⟩

/-- C3 counterexample: `" "` is a non-empty text, yet `store_vector` does
not return an id for it — the whitespace-only guard raises, so the claim's
"for every non-empty text" quantifier is too wide (the model functions
`hashFn`/`embed` are irrelevant on this path). -/
theorem store_vector_whitespace_counterexample :
    store_vector (fun s => s) (fun _ => []) "u" [] " " none =
      .error "Failed to store document: Text cannot be empty" ∧ (" " : String) ≠ "" := by
  exact ⟨rfl, by decide⟩

/-- C3 (amended): for every text that is non-empty after stripping
whitespace, `store_vector` returns the id `hashFn text` — a pure function
of the text, so identical text always yields the same id — and a second
store of identical text overwrites the existing record: the collection
size does not grow and the stored record carries the second call's
(augmented) metadata. -/
theorem store_vector_content_addressed (hashFn : String → String)
    (embed : String → List ℚ) (sa₁ sa₂ : String) (col : Collection)
    (text : String) (m₁ m₂ : Option Metadata) (h : strBlank text = false) :
    ∃ col₁ col₂,
      store_vector hashFn embed sa₁ col text m₁ =
        .ok (hashFn text, col₁, augMeta m₁ sa₁ text) ∧
      store_vector hashFn embed sa₂ col₁ text m₂ =
        .ok (hashFn text, col₂, augMeta m₂ sa₂ text) ∧
      col₂.length = col₁.length ∧
      dlookup (hashFn text) col₂ = some ⟨text, embed text, augMeta m₂ sa₂ text⟩ := by
  refine ⟨dictInsert col (hashFn text) ⟨text, embed text, augMeta m₁ sa₁ text⟩,
    dictInsert (dictInsert col (hashFn text) ⟨text, embed text, augMeta m₁ sa₁ text⟩)
      (hashFn text) ⟨text, embed text, augMeta m₂ sa₂ text⟩,
    ?_, ?_, ?_, dlookup_dictInsert_self _ _ _⟩
  · unfold store_vector
    rw [h]
    rfl
  · unfold store_vector
    rw [h]
    rfl
  · exact length_dictInsert_isSome (by rw [dlookup_dictInsert_self]; rfl) _

theorem store_vector_content_addressed_witness :
    strBlank "hello" = false ∧
    (∃ col₁ col₂,
      store_vector (fun s => s) (fun _ => []) "u1" [] "hello" none =
        .ok ("hello", col₁, augMeta none "u1" "hello") ∧
      store_vector (fun s => s) (fun _ => []) "u2" col₁ "hello"
          (some [("k", .str "v")]) =
        .ok ("hello", col₂, augMeta (some [("k", .str "v")]) "u2" "hello") ∧
      col₂.length = col₁.length ∧
      dlookup "hello" col₂ =
        some ⟨"hello", [], augMeta (some [("k", .str "v")]) "u2" "hello"⟩) :=
  ⟨by decide, store_vector_content_addressed (fun s => s) (fun _ => []) "u1" "u2" []
    "hello" none (some [("k", .str "v")]) (by decide)⟩

/-- C10: when the caller supplies a metadata mapping, `store_vector`
operates on that very mapping in place: the returned caller-visible dict
has gained the keys `text_length` and the fresh `stored_at` marker, and —
because the marker is fresh, i.e. different from anything the caller had
stored under `stored_at` — the mapping after the call differs from the
mapping that was passed in. -/
theorem store_vector_mutates_caller_metadata (hashFn : String → String)
    (embed : String → List ℚ) (sa : String) (col : Collection) (text : String)
    (m : Metadata) (h : strBlank text = false)
    (hfresh : dlookup "stored_at" m ≠ some (.str sa)) :
    store_vector hashFn embed sa col text (some m) =
      .ok (hashFn text,
        dictInsert col (hashFn text) ⟨text, embed text, augMeta (some m) sa text⟩,
        augMeta (some m) sa text) ∧
    dlookup "text_length" (augMeta (some m) sa text) = some (.int text.length) ∧
    dlookup "stored_at" (augMeta (some m) sa text) = some (.str sa) ∧
    augMeta (some m) sa text ≠ m := by
  have hsa : dlookup "stored_at" (augMeta (some m) sa text) = some (.str sa) :=
    dlookup_dictInsert_self _ _ _
  refine ⟨?_, ?_, hsa, ?_⟩
  · unfold store_vector
    rw [h]
    rfl
  · unfold augMeta
    rw [dlookup_dictInsert_ne _ _ (by decide), dlookup_dictInsert_self]
  · intro heq
    rw [heq] at hsa
    exact hfresh hsa

theorem store_vector_mutates_caller_metadata_witness :
    strBlank "hi" = false ∧
    dlookup "stored_at" [("k", MVal.str "v")] ≠ some (.str "u1") ∧
    (store_vector (fun s => s) (fun _ => []) "u1" [] "hi"
        (some [("k", MVal.str "v")]) =
      .ok ("hi",
        dictInsert [] "hi" ⟨"hi", [], augMeta (some [("k", MVal.str "v")]) "u1" "hi"⟩,
        augMeta (some [("k", MVal.str "v")]) "u1" "hi") ∧
    dlookup "text_length" (augMeta (some [("k", MVal.str "v")]) "u1" "hi") =
      some (.int ("hi" : String).length) ∧
    dlookup "stored_at" (augMeta (some [("k", MVal.str "v")]) "u1" "hi") =
      some (.str "u1") ∧
    augMeta (some [("k", MVal.str "v")]) "u1" "hi" ≠ [("k", MVal.str "v")]) :=
  ⟨by decide, by decide,
    store_vector_mutates_caller_metadata (fun s => s) (fun _ => []) "u1" [] "hi"
      [("k", MVal.str "v")] (by decide) (by decide)⟩

theorem trimChars_subset {l : List Char} {c : Char} (hc : c ∈ trimChars l) : c ∈ l := by
  unfold trimChars at hc
  rw [List.mem_reverse] at hc
  have h₁ := (List.dropWhile_suffix Char.isWhitespace).subset hc
  rw [List.mem_reverse] at h₁
  exact (List.dropWhile_suffix Char.isWhitespace).subset h₁

theorem trimChars_length_le (l : List Char) : (trimChars l).length ≤ l.length := by
  unfold trimChars
  rw [List.length_reverse]
  calc (List.dropWhile Char.isWhitespace
        (List.dropWhile Char.isWhitespace l).reverse).length
      ≤ (List.dropWhile Char.isWhitespace l).reverse.length :=
        ((List.dropWhile_suffix _).sublist).length_le
    _ = (List.dropWhile Char.isWhitespace l).length := List.length_reverse _
    _ ≤ l.length := ((List.dropWhile_suffix _).sublist).length_le

theorem dropWhile_append_dots (w : List Char) :
    ∃ w₂, List.dropWhile Char.isWhitespace (w ++ ('.' :: '.' :: '.' :: [])) =
      w₂ ++ ('.' :: '.' :: '.' :: []) := by
  induction w with
  | nil =>
    exact ⟨[], by rw [List.nil_append, List.dropWhile_cons, if_neg (by decide)]⟩
  | cons c rest ih =>
    by_cases hc : Char.isWhitespace c
    · obtain ⟨w₂, hw⟩ := ih
      exact ⟨w₂, by rw [List.cons_append, List.dropWhile_cons, if_pos hc, hw]⟩
    · exact ⟨c :: rest, by rw [List.cons_append, List.dropWhile_cons, if_neg hc]⟩

theorem trimChars_dots_tail (w : List Char) :
    (trimChars (w ++ ('.' :: '.' :: '.' :: []))).reverse.take 3 =
      '.' :: '.' :: '.' :: [] := by
  have hrev : (trimChars (w ++ ('.' :: '.' :: '.' :: []))).reverse =
      List.dropWhile Char.isWhitespace
        (List.dropWhile Char.isWhitespace (w ++ ('.' :: '.' :: '.' :: []))).reverse := by
    unfold trimChars
    rw [List.reverse_reverse]
  rw [hrev]
  obtain ⟨w₂, hw⟩ := dropWhile_append_dots w
  rw [hw, List.reverse_append,
    show ('.' :: '.' :: '.' :: []).reverse = '.' :: '.' :: '.' :: [] from rfl]
  rw [show ('.' :: '.' :: '.' :: []) ++ w₂.reverse = '.' :: '.' :: '.' :: w₂.reverse from rfl,
    List.dropWhile_cons, if_neg (by decide)]
  rfl

theorem preprocess_truncates (l : List Char) (h : 10000 < l.length) :
    (trimChars (truncate10k l)).length ≤ 10003 ∧
    (trimChars (truncate10k l)).reverse.take 3 = '.' :: '.' :: '.' :: [] := by
  constructor
  · calc (trimChars (truncate10k l)).length ≤ (truncate10k l).length :=
        trimChars_length_le _
      _ = 10003 := by
        unfold truncate10k
        rw [if_pos h, List.length_append, List.length_take]
        rw [Nat.min_eq_left (le_of_lt h)]
        rfl
  · unfold truncate10k
    rw [if_pos h]
    exact trimChars_dots_tail _

theorem preprocess_allowed (text : String) :
    (preprocess_text text).toList.all allowedChar = true := by
  rw [List.all_eq_true]
  intro c hc
  have hc₂ : c ∈ trimChars (truncate10k (preprocessCore text)) := hc
  have hc₃ := trimChars_subset hc₂
  have hc₄ : c ∈ preprocessCore text ∨ c = '.' := by
    unfold truncate10k at hc₃
    by_cases h : 10000 < (preprocessCore text).length
    · rw [if_pos h] at hc₃
      rcases List.mem_append.mp hc₃ with h₂ | h₂
      · exact Or.inl (List.take_subset _ _ h₂)
      · right
        simpa using h₂
    · rw [if_neg h] at hc₃
      exact Or.inl hc₃
  rcases hc₄ with h₂ | h₂
  · unfold preprocessCore at h₂
    exact List.of_mem_filter h₂
  · rw [h₂]
    decide

theorem round1_zero : round1 0 = 0 := by
  norm_num [round1, roundHalfEven]

/-- C6: `store_information` preprocesses its input as the composition
collapse-whitespace-runs, strip disallowed characters, truncate to 10000
characters with a trailing `"..."` marker, then strip; it fails with the
specific validation message when the input is blank or when preprocessing
leaves nothing, and otherwise delegates the preprocessed text to the
vector store.  The preprocessed text contains only allow-listed
characters, and whenever the collapsed-and-filtered text exceeds 10000
characters the stored text is capped at 10003 characters and ends with
the ellipsis marker. -/
theorem store_information_preprocess (hashFn : String → String)
    (embed : String → List ℚ) (sa : String) (col : Collection)
    (information : String) (m : Option Metadata) :
    (strBlank information = true →
      store_information hashFn embed sa col information m =
        .error "Failed to store information: Information cannot be empty") ∧
    (strBlank information = false → preprocess_text information = "" →
      store_information hashFn embed sa col information m =
        .error "Failed to store information: Information is empty after preprocessing") ∧
    (strBlank information = false → preprocess_text information ≠ "" →
      store_information hashFn embed sa col information m =
        .ok (hashFn (preprocess_text information),
          dictInsert col (hashFn (preprocess_text information))
            ⟨preprocess_text information, embed (preprocess_text information),
              augMeta m sa (preprocess_text information)⟩,
          augMeta m sa (preprocess_text information))) ∧
    preprocess_text information =
      String.mk (trimChars (truncate10k (preprocessCore information))) ∧
    (preprocess_text information).toList.all allowedChar = true ∧
    (∀ l : List Char, 10000 < l.length →
      (trimChars (truncate10k l)).length ≤ 10003 ∧
      (trimChars (truncate10k l)).reverse.take 3 = '.' :: '.' :: '.' :: []) := by
  refine ⟨?_, ?_, ?_, rfl, preprocess_allowed information, preprocess_truncates⟩
  · intro h
    simp [store_information, h]
  · intro h he
    simp [store_information, h, he]
  · intro h hne
    have hsb := strBlank_preprocess_ne_empty hne
    simp [store_information, h, hne, store_vector, hsb]

theorem store_information_preprocess_witness :
    strBlank " hi! " = false ∧
    preprocess_text " hi! " ≠ "" ∧
    store_information (fun s => s) (fun _ => []) "u" [] " hi! " none =
      .ok (preprocess_text " hi! ",
        dictInsert [] (preprocess_text " hi! ")
          ⟨preprocess_text " hi! ", [], augMeta none "u" (preprocess_text " hi! ")⟩,
        augMeta none "u" (preprocess_text " hi! ")) ∧
    10000 < (List.replicate 10001 'a').length ∧
    (trimChars (truncate10k (List.replicate 10001 'a'))).length ≤ 10003 ∧
    (trimChars (truncate10k (List.replicate 10001 'a'))).reverse.take 3 =
      '.' :: '.' :: '.' :: [] := by
  have hlen : 10000 < (List.replicate 10001 'a').length := by
    rw [List.length_replicate]
    omega
  have ht := (store_information_preprocess (fun s => s) (fun _ => []) "u" [] " hi! "
    none).2.2.2.2.2 (List.replicate 10001 'a') hlen
  exact ⟨by decide, by decide,
    (store_information_preprocess (fun s => s) (fun _ => []) "u" [] " hi! " none).2.2.1
      (by decide) (by decide), hlen, ht.1, ht.2⟩

/-- C4: initializing the SQLite backend with a legacy JSON file of K
well-formed entries (each with a non-empty timestamp and a feedback value
the table's CHECK constraint accepts) and an empty — or absent — feedback
table copies exactly K rows with the original timestamps preserved;
re-initializing while the table is non-empty inserts nothing. -/
theorem migration_oneshot (now : String) (data : List LegacyEntry) :
    ((∀ e ∈ data, e.timestamp.getD "" ≠ "") →
      (∀ e ∈ data, feedbackCheck e.feedback = true) →
      (initSqlite now (some data) none).length = data.length ∧
      (initSqlite now (some data) none).map Row.timestamp =
        data.map (fun e => e.timestamp.getD "")) ∧
    (∀ table : List Row, table ≠ [] → initSqlite now (some data) (some table) = table) := by
  constructor
  · intro hts hfb
    cases data with
    | nil => exact ⟨rfl, rfl⟩
    | cons e rest =>
      have hstep : initSqlite now (some (e :: rest)) none =
          insertAllChecked [] ((e :: rest).map (migrateEntry now)) := rfl
      have hall : ((e :: rest).map (migrateEntry now)).all
          (fun r => feedbackCheck r.feedback) = true := by
        rw [List.all_eq_true]
        intro r hr
        obtain ⟨x, hx, rfl⟩ := List.mem_map.mp hr
        exact hfb x hx
      have h₂ : insertAllChecked [] ((e :: rest).map (migrateEntry now)) =
          (e :: rest).map (migrateEntry now) := by
        unfold insertAllChecked
        rw [hall, if_pos rfl, List.nil_append]
      constructor
      · rw [hstep, h₂, List.length_map]
      · rw [hstep, h₂, List.map_map]
        apply List.map_congr_left
        intro x hx
        show (migrateEntry now x).timestamp = x.timestamp.getD ""
        cases hx₂ : x.timestamp with
        | none =>
          exact absurd (show x.timestamp.getD "" = "" by rw [hx₂]; rfl) (hts x hx)
        | some t =>
          have hne : t ≠ "" := by
            have h₃ := hts x hx
            rw [hx₂] at h₃
            exact h₃
          simp [migrateEntry, hx₂, hne]
  · intro table hne
    have hemp : table.isEmpty = false := by
      cases table with
      | nil => exact absurd rfl hne
      | cons a b => rfl
    show maybe_migrate_from_json now (some data) table = table
    unfold maybe_migrate_from_json
    rw [hemp]
    rfl

theorem migration_oneshot_witness :
    (initSqlite "NOW" (some
      [⟨some "m1", some "2023-01-01T00:00:00", "q1", "r1", some "positive", none, none⟩,
       ⟨none, some "2024-02-02T00:00:00", "q2", "r2", some "negative", some 5, some 2⟩])
      none).length =
      ([⟨some "m1", some "2023-01-01T00:00:00", "q1", "r1", some "positive", none, none⟩,
        ⟨none, some "2024-02-02T00:00:00", "q2", "r2", some "negative", some 5, some 2⟩] :
        List LegacyEntry).length ∧
    (initSqlite "NOW" (some
      [⟨some "m1", some "2023-01-01T00:00:00", "q1", "r1", some "positive", none, none⟩,
       ⟨none, some "2024-02-02T00:00:00", "q2", "r2", some "negative", some 5, some 2⟩])
      none).map Row.timestamp =
      ([⟨some "m1", some "2023-01-01T00:00:00", "q1", "r1", some "positive", none, none⟩,
        ⟨none, some "2024-02-02T00:00:00", "q2", "r2", some "negative", some 5, some 2⟩] :
        List LegacyEntry).map (fun e => e.timestamp.getD "") ∧
    initSqlite "NOW" (some
      [⟨some "m1", some "2023-01-01T00:00:00", "q1", "r1", some "positive", none, none⟩,
       ⟨none, some "2024-02-02T00:00:00", "q2", "r2", some "negative", some 5, some 2⟩])
      (some [mkRow "m0" "q0" "r0" "positive" "2022-01-01T00:00:00"]) =
      [mkRow "m0" "q0" "r0" "positive" "2022-01-01T00:00:00"] := by
  have h := (migration_oneshot "NOW"
    [⟨some "m1", some "2023-01-01T00:00:00", "q1", "r1", some "positive", none, none⟩,
     ⟨none, some "2024-02-02T00:00:00", "q2", "r2", some "negative", some 5, some 2⟩]).1
    (by decide) (by decide)
  exact ⟨h.1, h.2, (migration_oneshot "NOW"
    [⟨some "m1", some "2023-01-01T00:00:00", "q1", "r1", some "positive", none, none⟩,
     ⟨none, some "2024-02-02T00:00:00", "q2", "r2", some "negative", some 5, some 2⟩]).2
    [mkRow "m0" "q0" "r0" "positive" "2022-01-01T00:00:00"] (by decide)⟩

/-- C5 counterexample: on the JSON backend, `add_feedback` with the invalid
value `"meh"` is not rejected — the entry is appended as-is and the call
reports success. -/
theorem add_feedback_json_no_validation_counterexample :
    add_feedback_json [] "m1" "Q" "R" "meh" "t1" =
      (true, [mkJEntry "m1" "Q" "R" "meh" "t1"]) ∧
    (mkJEntry "m1" "Q" "R" "meh" "t1").feedback = "meh" ∧
    ("meh" : String) ≠ "positive" ∧ ("meh" : String) ≠ "negative" := by
  exact ⟨rfl, rfl, by decide, by decide⟩

/-- C5 (amended): on the SQLite backend a feedback value other than
`positive`/`negative` is rejected by the table's CHECK constraint — the
call returns `False` and the table is unchanged — while a valid value
appends exactly one row after the existing ones; on the JSON backend no
validation is performed and every call appends exactly one entry after the
existing ones, whatever the feedback value. -/
theorem add_feedback_validation (table : List Row) (file : List JEntry)
    (mid uq resp fb ts : String) :
    (fb ≠ "positive" → fb ≠ "negative" →
      add_feedback_sqlite table mid uq resp fb ts = (false, table)) ∧
    (fb = "positive" ∨ fb = "negative" →
      add_feedback_sqlite table mid uq resp fb ts =
        (true, table ++ [mkRow mid uq resp fb ts])) ∧
    add_feedback_json file mid uq resp fb ts =
      (true, file ++ [mkJEntry mid uq resp fb ts]) := by
  refine ⟨?_, ?_, rfl⟩
  · intro h₁ h₂
    unfold add_feedback_sqlite insertRow
    have hchk : feedbackCheck (mkRow mid uq resp fb ts).feedback = false := by
      show feedbackCheck (some fb) = false
      simp [feedbackCheck, h₁, h₂]
    rw [hchk, if_neg (by simp)]
  · intro h
    unfold add_feedback_sqlite insertRow
    have hchk : feedbackCheck (mkRow mid uq resp fb ts).feedback = true := by
      show feedbackCheck (some fb) = true
      rcases h with h | h <;> simp [feedbackCheck, h]
    rw [hchk, if_pos rfl]

theorem add_feedback_validation_witness :
    add_feedback_sqlite [] "m" "q" "r" "meh" "t" = (false, []) ∧
    add_feedback_sqlite [] "m" "q" "r" "positive" "t" =
      (true, [] ++ [mkRow "m" "q" "r" "positive" "t"]) ∧
    add_feedback_json [] "m" "q" "r" "meh" "t" =
      (true, [] ++ [mkJEntry "m" "q" "r" "meh" "t"]) :=
  ⟨(add_feedback_validation [] [] "m" "q" "r" "meh" "t").1 (by decide) (by decide),
   (add_feedback_validation [] [] "m" "q" "r" "positive" "t").2.1 (Or.inl rfl),
   (add_feedback_validation [] [] "m" "q" "r" "meh" "t").2.2⟩

/-- C7: under both backends, on a store with N positive and M negative
entries the satisfaction rate is `round(100*N/(N+M), 1)` when `N+M > 0` and
`0` when `N+M = 0`, and the average response/query lengths are `0` on an
empty store. -/
theorem feedback_stats_rate (table : List Row) (file : List JEntry) :
    (0 < posCount table + negCount table →
      (get_feedback_stats_sqlite table).satisfaction_rate =
        round1 (100 * (posCount table : ℚ) /
          ((posCount table : ℚ) + (negCount table : ℚ)))) ∧
    (posCount table + negCount table = 0 →
      (get_feedback_stats_sqlite table).satisfaction_rate = 0) ∧
    ((get_feedback_stats_sqlite []).average_response_length = 0 ∧
     (get_feedback_stats_sqlite []).average_query_length = 0) ∧
    (0 < posCountJ file + negCountJ file →
      (get_feedback_stats_json file).satisfaction_rate =
        round1 (100 * (posCountJ file : ℚ) /
          ((posCountJ file : ℚ) + (negCountJ file : ℚ)))) ∧
    (posCountJ file + negCountJ file = 0 →
      (get_feedback_stats_json file).satisfaction_rate = 0) ∧
    ((get_feedback_stats_json []).average_response_length = 0 ∧
     (get_feedback_stats_json []).average_query_length = 0) := by
  refine ⟨?_, ?_, ⟨rfl, rfl⟩, ?_, ?_, ⟨rfl, rfl⟩⟩
  · intro hp
    have htne : ¬ table.length = 0 := by
      intro h₀
      rw [List.length_eq_zero] at h₀
      subst h₀
      simp [posCount, negCount] at hp
    unfold get_feedback_stats_sqlite
    rw [if_neg htne]
    show round1 (if 0 < posCount table + negCount table then
        ((posCount table : ℚ) / ((posCount table : ℚ) + (negCount table : ℚ))) * 100
      else 0) = _
    rw [if_pos hp]
    congr 1
    ring
  · intro h₀
    by_cases ht : table.length = 0
    · unfold get_feedback_stats_sqlite
      rw [if_pos ht]
      rfl
    · unfold get_feedback_stats_sqlite
      rw [if_neg ht]
      show round1 (if 0 < posCount table + negCount table then
          ((posCount table : ℚ) / ((posCount table : ℚ) + (negCount table : ℚ))) * 100
        else 0) = 0
      rw [if_neg (by omega), round1_zero]
  · intro hp
    have hfne : file.isEmpty = false := by
      cases file with
      | nil => simp [posCountJ, negCountJ] at hp
      | cons a b => rfl
    unfold get_feedback_stats_json
    rw [hfne, if_neg (by simp)]
    show round1 (if 0 < posCountJ file + negCountJ file then
        ((posCountJ file : ℚ) / ((posCountJ file : ℚ) + (negCountJ file : ℚ))) * 100
      else 0) = _
    rw [if_pos hp]
    congr 1
    ring
  · intro h₀
    by_cases hf : file.isEmpty
    · unfold get_feedback_stats_json
      rw [if_pos hf]
      rfl
    · unfold get_feedback_stats_json
      rw [if_neg hf]
      show round1 (if 0 < posCountJ file + negCountJ file then
          ((posCountJ file : ℚ) / ((posCountJ file : ℚ) + (negCountJ file : ℚ))) * 100
        else 0) = 0
      rw [if_neg (by omega), round1_zero]

theorem feedback_stats_rate_witness :
    0 < posCount [mkRow "m" "q" "r" "positive" "t"] +
        negCount [mkRow "m" "q" "r" "positive" "t"] ∧
    (get_feedback_stats_sqlite [mkRow "m" "q" "r" "positive" "t"]).satisfaction_rate =
      round1 (100 * (posCount [mkRow "m" "q" "r" "positive" "t"] : ℚ) /
        ((posCount [mkRow "m" "q" "r" "positive" "t"] : ℚ) +
         (negCount [mkRow "m" "q" "r" "positive" "t"] : ℚ))) ∧
    (get_feedback_stats_json []).satisfaction_rate = 0 ∧
    (get_feedback_stats_json []).average_response_length = 0 :=
  ⟨by decide,
   (feedback_stats_rate [mkRow "m" "q" "r" "positive" "t"] []).1 (by decide),
   (feedback_stats_rate [] []).2.2.2.2.1 (by decide),
   (feedback_stats_rate [] []).2.2.2.2.2.1⟩

/-- C8 counterexample: on the JSON backend, `export_feedback` writes the
stored entries in file order — here a later timestamp before an earlier
one — so the exported list is not ordered ascending by timestamp. -/
theorem export_json_unsorted_counterexample :
    export_feedback_json "now"
      [mkJEntry "a" "q" "r" "positive" "2024-06-01T00:00:00",
       mkJEntry "b" "q" "r" "negative" "2024-01-01T00:00:00"] =
      ⟨"now", 2,
       [mkJEntry "a" "q" "r" "positive" "2024-06-01T00:00:00",
        mkJEntry "b" "q" "r" "negative" "2024-01-01T00:00:00"]⟩ ∧
    ¬ jTsLe (mkJEntry "a" "q" "r" "positive" "2024-06-01T00:00:00")
        (mkJEntry "b" "q" "r" "negative" "2024-01-01T00:00:00") := by
  exact ⟨rfl, by decide⟩

/-- C8 (amended): on the SQLite backend `export_feedback` writes the rows
ordered ascending by timestamp — the reverse of `get_recent_feedback`'s
descending order — with `total_entries` equal to the number of stored rows;
on the JSON backend `get_recent_feedback` does sort descending, but
`export_feedback` writes the entries in file (insertion) order with no
sorting, `total_entries` still being the stored count. -/
theorem export_order (now : String) (table : List Row) (file : List JEntry)
    (limit : ℕ) :
    (export_feedback_sqlite now table).total_entries = table.length ∧
    List.Pairwise rowTsLe (export_feedback_sqlite now table).feedback_data ∧
    List.Pairwise rowTsGe (get_recent_feedback_sqlite table limit) ∧
    (export_feedback_json now file).total_entries = file.length ∧
    (export_feedback_json now file).feedback_data = file ∧
    List.Pairwise jTsGe (get_recent_feedback_json file limit) := by
  refine ⟨?_, ?_, ?_, rfl, rfl, ?_⟩
  · exact (List.perm_insertionSort rowTsLe table).length_eq
  · exact List.sorted_insertionSort rowTsLe table
  · exact List.Pairwise.sublist (List.take_sublist _ _)
      (List.sorted_insertionSort rowTsGe table)
  · exact List.Pairwise.sublist (List.take_sublist _ _)
      (List.sorted_insertionSort jTsGe file)

theorem dlookup_none_keys {β : Type} {m : List (String × β)} {k : String}
    (h : dlookup k m = none) : ∀ p ∈ m, p.1 ≠ k := by
  induction m with
  | nil => intro p hp; cases hp
  | cons q rest ih =>
    obtain ⟨k₂, w⟩ := q
    intro p hp
    by_cases hk : k₂ = k
    · simp [dlookup, hk] at h
    · rcases List.mem_cons.mp hp with h₂ | h₂
      · rw [h₂]
        exact hk
      · exact ih (by simpa [dlookup, hk] using h) p h₂

/-- C9 counterexample: deleting an id absent from the collection returns
`True`, not `False` — the underlying delete is a silent no-op. -/
theorem delete_absent_returns_true_counterexample :
    delete_document [] "missing" = (true, []) ∧
    (delete_document [] "missing").1 ≠ false := by
  exact ⟨rfl, by decide⟩

/-- C9 (amended): for every id not present in the collection,
`delete_document` returns `True` with the collection unchanged (the
underlying delete silently ignores absent ids rather than raising), and
deleting the same id twice yields the same store state and the same result
as deleting it once; the method never raises (it is total and its first
component is always `True` in this model of the store). -/
theorem delete_document_idempotent (col : Collection) (docId : String) :
    (dlookup docId col = none → delete_document col docId = (true, col)) ∧
    delete_document (delete_document col docId).2 docId =
      delete_document col docId ∧
    (delete_document col docId).1 = true := by
  refine ⟨?_, ?_, rfl⟩
  · intro h
    unfold delete_document collectionDelete
    have hkeep : col.filter (fun p => decide (p.1 ≠ docId)) = col := by
      rw [List.filter_eq_self]
      intro p hp
      simpa using dlookup_none_keys h p hp
    rw [hkeep]
  · unfold delete_document collectionDelete
    rw [List.filter_filter]
    have hsame : ∀ p ∈ col,
        (decide (p.1 ≠ docId) && decide (p.1 ≠ docId)) = decide (p.1 ≠ docId) :=
      fun p _ => Bool.and_self _
    rw [List.filter_congr hsame]

theorem delete_document_idempotent_witness :
    dlookup "missing" ([] : Collection) = none ∧
    delete_document ([] : Collection) "missing" = (true, []) ∧
    delete_document (delete_document ([] : Collection) "x").2 "x" =
      delete_document ([] : Collection) "x" :=
  ⟨by decide, (delete_document_idempotent [] "missing").1 (by decide),
   (delete_document_idempotent [] "x").2.1⟩

end Chatbot
